import Mathlib

/-!
Verification of the lexical resume-scoring service (`src/main.py`).

The Python program is shallowly embedded below.  External collaborators
(NLTK sentence/word tokenizers, the Porter stemmer, spaCy entities and
noun chunks, the PDF/DOCX text extractors) are parameters gathered in an
`Env` structure; everything written in the source file itself (trigger
filtering, preprocessing, Jaccard similarity, the max-similarity scoring
loop, name fallback, report-row assembly, the endpoint handlers) is
translated definition by definition.  Python strings are modelled as
Lean `String`s (lists of characters), Python `round` as round-half-to-even
on exact rationals, Python dicts as insertion-ordered association lists.
-/

/-- Python whitespace characters, as used by `str.strip` and `\s`. -/
def isPySpace (c : Char) : Bool :=
  c = ' ' || c = '\t' || c = '\n' || c = '\r' || c = '\x0b' || c = '\x0c'

/-- ASCII model of a regex word character `\w`: alphanumeric or underscore. -/
def isWordChar (c : Char) : Bool :=
  c.isAlphanum || c = '_'

/-- Model of Python `str.lower()` (ASCII case folding). -/
def pyLower (s : String) : String :=
  String.mk (s.toList.map Char.toLower)

/-- Model of Python `str.strip()`: drop whitespace from both ends. -/
def pyStrip (s : String) : String :=
  String.mk (((s.toList.dropWhile isPySpace).reverse.dropWhile isPySpace).reverse)

/-- Model of `re.sub(r'[^\w\s]', '', text)`: keep word chars and whitespace. -/
def removePunct (s : String) : String :=
  String.mk (s.toList.filter (fun c => isWordChar c || isPySpace c))

/-- Helper for `pyTitle`: the flag records whether the previous character
was alphabetic (cased), which decides upper- versus lower-casing. -/
def pyTitleGo : List Char → Bool → List Char
  | [], _ => []
  | c :: rest, prevCased =>
    if c.isAlpha then
      (if prevCased then c.toLower else c.toUpper) :: pyTitleGo rest true
    else
      c :: pyTitleGo rest false

/-- Model of Python `str.title()`: first letter of each word upper-cased,
the rest lower-cased. -/
def pyTitle (s : String) : String :=
  String.mk (pyTitleGo s.toList false)

/-- Model of Python `suffix in`-style `str.endswith(suffix)`. -/
def pyEndsWith (s suffix : String) : Bool :=
  suffix.toList.isSuffixOf s.toList

/-- Model of Python substring membership `needle in hay`. -/
def containsSub (needle : List Char) : List Char → Bool
  | [] => needle.isEmpty
  | c :: rest => needle.isPrefixOf (c :: rest) || containsSub needle rest

/-- Model of Python `text.split(sep)` for a single-character separator:
no collapsing, empty pieces kept, `[[]]` on empty input. -/
def splitOnChar (sep : Char) : List Char → List (List Char)
  | [] => [[]]
  | c :: rest =>
    if c = sep then [] :: splitOnChar sep rest
    else
      match splitOnChar sep rest with
      | [] => [[c]]
      | piece :: pieces => (c :: piece) :: pieces

/-- Model of Python `text.split('\n')`. -/
def splitLines (s : String) : List String :=
  (splitOnChar '\n' s.toList).map String.mk

/-- Model of Python 3 `round` on an exact rational: round half to even.
`f = ⌊q⌋` and `rem / q.den` is the fractional part `q - ⌊q⌋`, so the
three branches are `q - ⌊q⌋ < 1/2`, `q - ⌊q⌋ > 1/2` and the exact tie
(resolved to the even neighbour).  Written in integer arithmetic so that
the kernel can evaluate it on closed inputs. -/
def pyRound (q : ℚ) : ℤ :=
  let f : ℤ := q.num / (q.den : ℤ)
  let rem : ℤ := q.num % (q.den : ℤ)
  if 2 * rem < (q.den : ℤ) then f
  else if (q.den : ℤ) < 2 * rem then f + 1
  else if f % 2 = 0 then f else f + 1

/-- The external collaborators of `src/main.py`: NLTK's `sent_tokenize`
and `word_tokenize`, the Porter stemmer's `stem`, spaCy's entity list
(text, label pairs) and noun-chunk texts, and the PDF/DOCX text
extractors (document bytes are modelled as an opaque `String`). -/
structure Env where
  sent_tokenize : String → List String
  word_tokenize : String → List String
  stem : String → String
  ents : String → List (String × String)
  noun_chunks : String → List String
  extract_pdf : String → String
  extract_docx : String → String

/-- The trigger-phrase list of `extract_criteria` in `src/main.py`. -/
def trigger_phrases : List String :=
  ["must have", "required", "qualifications", "experience",
   "skills", "certification", "proficient", "knowledge of",
   "ability to", "degree in", "years of"]

/-- `any(trigger in sentence_lower for trigger in trigger_phrases)`
with `sentence_lower = sentence.lower()`. -/
def hasTrigger (sentence : String) : Bool :=
  trigger_phrases.any (fun tr => containsSub tr.toList (pyLower sentence).toList)

/-- The sentence loop of `extract_criteria`: keep (stripped) sentences
containing a trigger phrase, in order. -/
def extractLoop : List String → List String
  | [] => []
  | s :: rest =>
    if hasTrigger s then pyStrip s :: extractLoop rest else extractLoop rest

/-- `extract_criteria(text)` from `src/main.py`, with the NLTK sentence
tokenizer passed in as `st`. -/
def extract_criteria (st : String → List String) (text : String) : List String :=
  extractLoop (st text)

/-- `preprocess(text)` from `src/main.py`: lower, strip punctuation,
word-tokenize, stem, collect into a set. -/
def preprocess (env : Env) (text : String) : Finset String :=
  ((env.word_tokenize (removePunct (pyLower text))).map env.stem).toFinset

/-- `jaccard_similarity(set1, set2)` from `src/main.py`:
`len(intersection) / len(union) if union else 0`.  The division is
written with `mkRat`, the kernel-computable form of
`(↑card / ↑card : ℚ)` — see `jaccard_similarity_eq_div`. -/
def jaccard_similarity (set1 set2 : Finset String) : ℚ :=
  if set1 ∪ set2 = ∅ then 0
  else mkRat ((set1 ∩ set2).card : ℤ) ((set1 ∪ set2).card)

/-- Kernel-computable form of `q * 5` (see `mulFive_eq`). -/
def mulFive (q : ℚ) : ℚ :=
  mkRat (q.num * 5) q.den

/-- The per-criterion scoring loop of `score_resumes_endpoint`: running
maximum (strict-greater update) of the Jaccard similarity between the
criterion's token set and each sentence's token set, then
`round(max_sim * 5)`. -/
def criterionScore (env : Env) (text criterion : String) : ℤ :=
  let criterion_set := preprocess env criterion
  let max_sim := (env.sent_tokenize text).foldl
    (fun m sentence =>
      let sim := jaccard_similarity criterion_set (preprocess env sentence)
      if m < sim then sim else m) 0
  pyRound (mulFive max_sim)

/-- The entity loop of `extract_name`: first entity labelled PERSON. -/
def findPerson : List (String × String) → Option String
  | [] => none
  | e :: rest => if e.2 = "PERSON" then some e.1 else findPerson rest

/-- The line loop of `extract_name`: first line whose stripped form is
non-empty (returned stripped), else the sentinel. -/
def nameFromLines : List String → String
  | [] => "Unknown"
  | l :: rest => if pyStrip l = "" then nameFromLines rest else pyStrip l

/-- `extract_name(text)` from `src/main.py`, with spaCy's entity list
passed in as `ents`. -/
def extract_name (ents : String → List (String × String)) (text : String) : String :=
  match findPerson (ents text) with
  | some n => n
  | none => nameFromLines (splitLines text)

/-- `get_column_name(criterion)` from `src/main.py`: title-cased last
noun chunk, or the raw criterion when there are no noun chunks. -/
def get_column_name (nc : String → List String) (criterion : String) : String :=
  match (nc criterion).getLast? with
  | some last_noun => pyTitle last_noun
  | none => criterion

/-- A cell of a report row: Python stores a string (the name) or an int. -/
inductive Cell where
  | s : String → Cell
  | i : ℤ → Cell
deriving DecidableEq

/-- Python-dict key test. -/
def hasKey (d : List (String × Cell)) (k : String) : Bool :=
  d.any (fun p => p.1 = k)

/-- Python-dict assignment `d[k] = v`: update in place when the key
exists (keeping its insertion position), else append. -/
def dictSet (d : List (String × Cell)) (k : String) (v : Cell) : List (String × Cell) :=
  if hasKey d k then d.map (fun p => if p.1 = k then (k, v) else p)
  else d ++ [(k, v)]

/-- The row-assembly loop of `score_resumes_endpoint`:
`row = {"Candidate Name": name}`, then `row[column_names[i]] = score`
for each score, then `row["Total Score"] = total`. -/
def buildRow (name : String) (scores : List ℤ) (total : ℤ)
    (column_names : List String) : List (String × Cell) :=
  dictSet
    ((column_names.zip scores).foldl
      (fun d p => dictSet d p.1 (Cell.i p.2))
      [("Candidate Name", Cell.s name)])
    "Total Score" (Cell.i total)

/-- The integer content of a cell (`0` for the string-valued name cell). -/
def cellInt : Cell → ℤ
  | Cell.i v => v
  | Cell.s _ => 0

/-- The sum of the score columns a reader sees in a row: every cell
except the "Candidate Name" and "Total Score" columns. -/
def displayedScoreSum (row : List (String × Cell)) : ℤ :=
  ((row.filter (fun p =>
    !(p.1 == "Candidate Name" || p.1 == "Total Score"))).map
    (fun p => cellInt p.2)).sum

/-- `file.filename.endswith(('.pdf', '.docx'))`. -/
def validExt (fname : String) : Bool :=
  pyEndsWith fname ".pdf" || pyEndsWith fname ".docx"

/-- The shared document-reading prelude of both endpoints:
`text = ""` then PDF or DOCX extraction by extension. -/
def read_document (env : Env) (fname content : String) : String :=
  if pyEndsWith fname ".pdf" then env.extract_pdf content
  else if pyEndsWith fname ".docx" then env.extract_docx content
  else ""

/-- One result record of the scoring loop: `{"name", "scores", "total"}`. -/
structure RowData where
  name : String
  scores : List ℤ
  total : ℤ
deriving DecidableEq

/-- The per-file body of the scoring loop (reached only for files with a
valid extension): extract text, extract name, score every criterion,
total the scores. -/
def mkResult (env : Env) (criteria : List String) (fname content : String) : RowData :=
  let text := read_document env fname content
  let scores := criteria.map (fun c => criterionScore env text c)
  { name := extract_name env.ents text, scores := scores, total := scores.sum }

/-- The file loop of `score_resumes_endpoint`: `continue` on an invalid
extension, otherwise append the scored result. -/
def processLoop (env : Env) (criteria : List String) :
    List (String × String) → List RowData
  | [] => []
  | f :: rest =>
    if validExt f.1 then mkResult env criteria f.1 f.2 :: processLoop env criteria rest
    else processLoop env criteria rest

/-- The emitted report: the rows of the dataframe written to `scores.xlsx`. -/
structure Report where
  rows : List (List (String × Cell))
deriving DecidableEq

/-- `score_resumes_endpoint(criteria, files)` from `src/main.py`.  The
handler body raises no `HTTPException`; the error channel exists only to
express HTTP failure statuses.  Files are (filename, content) pairs. -/
def score_resumes_endpoint (env : Env) (criteria : List String)
    (files : List (String × String)) : Except (ℕ × String) Report :=
  let results := processLoop env criteria files
  let column_names := criteria.map (get_column_name env.noun_chunks)
  Except.ok
    { rows := results.map (fun r => buildRow r.name r.scores r.total column_names) }

/-- The report row produced for one (valid) uploaded file. -/
def rowFor (env : Env) (criteria : List String) (f : String × String) :
    List (String × Cell) :=
  buildRow (mkResult env criteria f.1 f.2).name
    (mkResult env criteria f.1 f.2).scores
    (mkResult env criteria f.1 f.2).total
    (criteria.map (get_column_name env.noun_chunks))

/-- `extract_criteria_endpoint(file)` from `src/main.py`: 400 on a bad
extension, otherwise extract, store globally and return the criteria.
The pair is (HTTP result, new value of the `extracted_criteria` global). -/
def extract_criteria_endpoint (env : Env) (stored : List String)
    (fname content : String) :
    Except (ℕ × String) (List String) × List String :=
  if !validExt fname then
    (Except.error (400, "Unsupported file type. Only PDF and DOCX are allowed."), stored)
  else
    let cs := extract_criteria env.sent_tokenize (read_document env fname content)
    (Except.ok cs, cs)

/-- `get_criteria()` from `src/main.py`: 404 when the stored list is
empty (falsy), else return it. -/
def get_criteria (stored : List String) : Except (ℕ × String) (List String) :=
  if stored = [] then
    Except.error (404, "No criteria found. Please extract criteria first.")
  else Except.ok stored

/-- A concrete environment with trivial collaborators, used to evaluate
the embedding on closed inputs: no sentences, whitespace word splitting,
identity stemmer, no entities, no noun chunks, empty documents. -/
def env0 : Env where
  sent_tokenize := fun _ => []
  word_tokenize := fun s => (splitOnChar ' ' s.toList).filterMap
    (fun piece => if piece.isEmpty then none else some (String.mk piece))
  stem := id
  ents := fun _ => []
  noun_chunks := fun _ => []
  extract_pdf := fun _ => ""
  extract_docx := fun _ => ""

/-! ### Bridging lemmas: the kernel-computable forms equal the textbook forms -/

/-- `jaccard_similarity` is `|A ∩ B| / |A ∪ B|`, with `0` for an empty union. -/
theorem jaccard_similarity_eq_div (A B : Finset String) :
    jaccard_similarity A B =
      if A ∪ B = ∅ then 0
      else ((A ∩ B).card : ℚ) / ((A ∪ B).card : ℚ) := by
  unfold jaccard_similarity
  split_ifs with h
  · rfl
  · rw [Rat.mkRat_eq_div]
    push_cast
    rfl

/-- `mulFive` is multiplication by five. -/
theorem mulFive_eq (q : ℚ) : mulFive q = q * 5 := by
  unfold mulFive
  rw [Rat.mkRat_eq_div]
  push_cast
  rw [mul_comm (q.num : ℚ) 5, mul_div_assoc, Rat.num_div_den, mul_comm]

/-- `pyRound` in terms of the floor and the fractional part's numerator. -/
theorem pyRound_def (q : ℚ) :
    pyRound q =
      if 2 * (q.num % (q.den : ℤ)) < (q.den : ℤ) then ⌊q⌋
      else if (q.den : ℤ) < 2 * (q.num % (q.den : ℤ)) then ⌊q⌋ + 1
      else if ⌊q⌋ % 2 = 0 then ⌊q⌋ else ⌊q⌋ + 1 := by
  simp only [pyRound, Rat.floor_def]

theorem pyRound_nonneg (q : ℚ) (h : 0 ≤ q) : 0 ≤ pyRound q := by
  rw [pyRound_def]
  have h0 : 0 ≤ ⌊q⌋ := Int.floor_nonneg.mpr h
  split_ifs <;> omega

theorem pyRound_le (q : ℚ) (n : ℤ) (h : q ≤ (n : ℚ)) : pyRound q ≤ n := by
  rw [pyRound_def]
  have h1 : ⌊q⌋ ≤ n := by simpa using Int.floor_mono h
  rcases lt_or_eq_of_le h1 with h2 | h2
  · split_ifs <;> omega
  · have heq : q = (n : ℚ) := by
      refine le_antisymm h ?_
      rw [← h2]
      exact Int.floor_le q
    subst heq
    simp

/-- Jaccard similarity is non-negative. -/
theorem jaccard_nonneg (A B : Finset String) : 0 ≤ jaccard_similarity A B := by
  rw [jaccard_similarity_eq_div]
  split_ifs
  · exact le_refl 0
  · positivity

/-- Jaccard similarity is at most one. -/
theorem jaccard_le_one (A B : Finset String) : jaccard_similarity A B ≤ 1 := by
  rw [jaccard_similarity_eq_div]
  split_ifs with h
  · exact zero_le_one
  · refine div_le_one_of_le₀ ?_ (by positivity)
    exact_mod_cast Finset.card_le_card (Finset.inter_subset_union)

/-- Jaccard similarity against an empty left set is zero. -/
theorem jaccard_empty_left (B : Finset String) : jaccard_similarity ∅ B = 0 := by
  rw [jaccard_similarity_eq_div]
  split_ifs with h
  · rfl
  · simp

/-! ### Max-fold lemmas: the running-maximum loop computes a list maximum -/

theorem foldr_max_init_nonneg (l : List ℚ) : 0 ≤ l.foldr max 0 := by
  induction l with
  | nil => exact le_refl 0
  | cons x t ih => exact le_trans ih (le_max_right x _)

theorem foldr_max_le (l : List ℚ) (b : ℚ) (hb : 0 ≤ b)
    (h : ∀ x ∈ l, x ≤ b) : l.foldr max 0 ≤ b := by
  induction l with
  | nil => exact hb
  | cons x t ih =>
    refine max_le (h x (List.mem_cons_self x t)) (ih ?_)
    intro y hy
    exact h y (List.mem_cons_of_mem x hy)

theorem foldr_max_pull (t : List ℚ) (a b : ℚ) :
    t.foldr max (max a b) = max a (t.foldr max b) := by
  induction t with
  | nil => rfl
  | cons c t ih =>
    simp only [List.foldr_cons, ih, max_left_comm]

theorem if_lt_eq_max (a x : ℚ) : (if a < x then x else a) = max a x := by
  rcases le_or_lt x a with h | h
  · rw [if_neg (not_lt.mpr h), max_eq_left h]
  · rw [if_pos h, max_eq_right (le_of_lt h)]

theorem foldl_if_max (l : List ℚ) (a : ℚ) :
    l.foldl (fun m x => if m < x then x else m) a = l.foldr max a := by
  induction l generalizing a with
  | nil => rfl
  | cons x t ih =>
    rw [List.foldl_cons, if_lt_eq_max, ih, List.foldr_cons,
      max_comm a x, foldr_max_pull]

/-! ### The claims -/

/-- C1: the lexical score of a (criterion, resume) pair equals
`round(5 * m)` where `m` is the maximum Jaccard similarity between the
criterion's preprocessed token set and any sentence's preprocessed token
set (`0` when there are no sentences); the score is an integer in
`[0, 5]`; a criterion whose preprocessing is the empty token set scores
`0`, and a resume with no sentences scores `0`. -/
theorem C1_lexical_score (env : Env) (text criterion : String) :
    criterionScore env text criterion =
      pyRound (5 * ((env.sent_tokenize text).map
        (fun s => jaccard_similarity (preprocess env criterion)
          (preprocess env s))).foldr max 0) ∧
    0 ≤ criterionScore env text criterion ∧
    criterionScore env text criterion ≤ 5 ∧
    (preprocess env criterion = ∅ → criterionScore env text criterion = 0) ∧
    (env.sent_tokenize text = [] → criterionScore env text criterion = 0) := by
  have hloop : (env.sent_tokenize text).foldl
      (fun m sentence =>
        let sim := jaccard_similarity (preprocess env criterion)
          (preprocess env sentence)
        if m < sim then sim else m) 0 =
      ((env.sent_tokenize text).map
        (fun s => jaccard_similarity (preprocess env criterion)
          (preprocess env s))).foldr max 0 := by
    rw [← foldl_if_max]
    exact (List.foldl_map
      (fun s => jaccard_similarity (preprocess env criterion)
        (preprocess env s))
      (fun m x => if m < x then x else m)
      (env.sent_tokenize text) 0).symm
  have hmain : criterionScore env text criterion =
      pyRound (5 * ((env.sent_tokenize text).map
        (fun s => jaccard_similarity (preprocess env criterion)
          (preprocess env s))).foldr max 0) := by
    simp only [criterionScore]
    rw [mulFive_eq, hloop, mul_comm]
  have hM0 : 0 ≤ ((env.sent_tokenize text).map
      (fun s => jaccard_similarity (preprocess env criterion)
        (preprocess env s))).foldr max 0 := foldr_max_init_nonneg _
  have hM1 : ((env.sent_tokenize text).map
      (fun s => jaccard_similarity (preprocess env criterion)
        (preprocess env s))).foldr max 0 ≤ 1 := by
    refine foldr_max_le _ 1 zero_le_one ?_
    intro x hx
    rcases List.mem_map.mp hx with ⟨s, _, rfl⟩
    exact jaccard_le_one _ _
  refine ⟨hmain, ?_, ?_, ?_, ?_⟩
  · rw [hmain]
    exact pyRound_nonneg _ (by positivity)
  · rw [hmain]
    have : 5 * ((env.sent_tokenize text).map
        (fun s => jaccard_similarity (preprocess env criterion)
          (preprocess env s))).foldr max 0 ≤ ((5 : ℤ) : ℚ) := by
      push_cast
      nlinarith
    exact pyRound_le _ 5 this
  · intro hempty
    rw [hmain]
    have hall : ((env.sent_tokenize text).map
        (fun s => jaccard_similarity (preprocess env criterion)
          (preprocess env s))).foldr max 0 = 0 := by
      refine le_antisymm ?_ hM0
      refine foldr_max_le _ 0 (le_refl 0) ?_
      intro x hx
      rcases List.mem_map.mp hx with ⟨s, _, rfl⟩
      rw [hempty, jaccard_empty_left]
    rw [hall, mul_zero]
    decide
  · intro hempty
    rw [hmain, hempty]
    simp only [List.map_nil, List.foldr_nil, mul_zero]
    decide

/-- Witness for C1 at concrete inputs: with no sentences the score is
`0`, and an empty-token criterion also scores `0`. -/
theorem C1_lexical_score_witness :
    criterionScore env0 "resume text" "" = 0 ∧
    criterionScore env0 "resume text" "skills" = 0 := by
  have h1 := C1_lexical_score env0 "resume text" ""
  have h2 := C1_lexical_score env0 "resume text" "skills"
  exact ⟨h1.2.2.2.1 (by decide), h2.2.2.2.2 (by decide)⟩

/-- C3: Jaccard similarity is symmetric, equals `1` on a nonempty set
with itself, and equals `0` for two empty sets or disjoint sets. -/
theorem C3_jaccard_algebra (A B : Finset String) :
    jaccard_similarity A B = jaccard_similarity B A ∧
    (A ≠ ∅ → jaccard_similarity A A = 1) ∧
    (A = ∅ → B = ∅ → jaccard_similarity A B = 0) ∧
    (Disjoint A B → jaccard_similarity A B = 0) := by
  refine ⟨?_, ?_, ?_, ?_⟩
  · rw [jaccard_similarity_eq_div, jaccard_similarity_eq_div,
      Finset.union_comm, Finset.inter_comm]
  · intro h
    rw [jaccard_similarity_eq_div]
    rw [Finset.union_self, Finset.inter_self, if_neg h]
    refine div_self ?_
    have hc : A.card ≠ 0 := fun hc => h (Finset.card_eq_zero.mp hc)
    exact_mod_cast hc
  · intro hA hB
    subst hA; subst hB
    rw [jaccard_similarity_eq_div]
    simp
  · intro h
    rw [jaccard_similarity_eq_div]
    split_ifs with hu
    · rfl
    · rw [Finset.disjoint_iff_inter_eq_empty.mp h]
      simp

/-- Witness for C3 at concrete sets. -/
theorem C3_jaccard_algebra_witness :
    jaccard_similarity {"a"} {"b"} = jaccard_similarity {"b"} {"a"} ∧
    jaccard_similarity {"a"} {"a"} = 1 ∧
    jaccard_similarity ∅ ∅ = 0 ∧
    jaccard_similarity {"a"} {"b"} = 0 := by
  have h1 := C3_jaccard_algebra {"a"} {"b"}
  have h2 := C3_jaccard_algebra ({"a"} : Finset String) {"a"}
  have h3 := C3_jaccard_algebra (∅ : Finset String) ∅
  exact ⟨h1.1, h2.2.1 (by decide), h3.2.2.1 rfl rfl,
    h1.2.2.2 (by simp)⟩

/-- C2 (amended): the lexical criteria extractor returns exactly those
sentences (as produced by the sentence tokenizer) whose lowercased form
contains at least one trigger phrase, in source sentence order, with no
deduplication, each stripped of leading and trailing whitespace; the
empty sequence when none match. -/
theorem C2_extract_criteria_filter (st : String → List String) (text : String) :
    extract_criteria st text = ((st text).filter hasTrigger).map pyStrip := by
  unfold extract_criteria
  suffices h : ∀ l : List String,
      extractLoop l = (l.filter hasTrigger).map pyStrip from h (st text)
  intro l
  induction l with
  | nil => rfl
  | cons s rest ih =>
    by_cases hs : hasTrigger s
    · simp [extractLoop, hs, List.filter_cons, ih]
    · simp [extractLoop, hs, List.filter_cons, ih]

/-- C2 counterexample: the extractor does not return matching sentences
verbatim — a matching sentence carrying surrounding whitespace is
returned stripped, so the output differs from the filtered sentence
sequence itself. -/
theorem C2_counterexample :
    extract_criteria (fun _ => [" must have x"]) "doc" = ["must have x"] ∧
    [" must have x"].filter hasTrigger = [" must have x"] ∧
    (["must have x"] : List String) ≠ [" must have x"] := by decide

/-- C7 (amended): the lexical candidate identifier returns the text of
the first entity labelled PERSON; failing that, the first line whose
stripped form is non-empty, returned *stripped* of surrounding
whitespace (not verbatim); and the sentinel "Unknown" when the text is
entirely blank. -/
theorem C7_extract_name_spec (ents : String → List (String × String)) (text : String) :
    (∀ e, (ents text).find? (fun p => p.2 == "PERSON") = some e →
      extract_name ents text = e.1) ∧
    ((ents text).find? (fun p => p.2 == "PERSON") = none →
      (∀ l, (splitLines text).find? (fun l => !(pyStrip l == "")) = some l →
        extract_name ents text = pyStrip l) ∧
      ((splitLines text).find? (fun l => !(pyStrip l == "")) = none →
        extract_name ents text = "Unknown")) := by
  have hfp : ∀ L : List (String × String),
      (∀ e, L.find? (fun p => p.2 == "PERSON") = some e →
        findPerson L = some e.1) ∧
      (L.find? (fun p => p.2 == "PERSON") = none → findPerson L = none) := by
    intro L
    induction L with
    | nil => exact ⟨fun e he => by simp at he, fun _ => rfl⟩
    | cons p rest ih =>
      constructor
      · intro e he
        by_cases hp : p.2 = "PERSON"
        · rw [List.find?_cons_of_pos _ (by simp [hp])] at he
          cases he
          simp [findPerson, hp]
        · rw [List.find?_cons_of_neg _ (by simp [hp])] at he
          simpa [findPerson, hp] using ih.1 e he
      · intro he
        by_cases hp : p.2 = "PERSON"
        · rw [List.find?_cons_of_pos _ (by simp [hp])] at he
          cases he
        · rw [List.find?_cons_of_neg _ (by simp [hp])] at he
          simpa [findPerson, hp] using ih.2 he
  have hnl : ∀ L : List String,
      (∀ l, L.find? (fun l => !(pyStrip l == "")) = some l →
        nameFromLines L = pyStrip l) ∧
      (L.find? (fun l => !(pyStrip l == "")) = none →
        nameFromLines L = "Unknown") := by
    intro L
    induction L with
    | nil => exact ⟨fun l hl => by simp at hl, fun _ => rfl⟩
    | cons l rest ih =>
      constructor
      · intro l' hl'
        by_cases hb : pyStrip l = ""
        · rw [List.find?_cons_of_neg _ (by simp [hb])] at hl'
          simpa [nameFromLines, hb] using ih.1 l' hl'
        · rw [List.find?_cons_of_pos _ (by simp [hb])] at hl'
          cases hl'
          simp [nameFromLines, hb]
      · intro hl'
        by_cases hb : pyStrip l = ""
        · rw [List.find?_cons_of_neg _ (by simp [hb])] at hl'
          simpa [nameFromLines, hb] using ih.2 hl'
        · rw [List.find?_cons_of_pos _ (by simp [hb])] at hl'
          cases hl'
  constructor
  · intro e he
    have h1 := (hfp (ents text)).1 e he
    simp [extract_name, h1]
  · intro hnone
    have h0 := (hfp (ents text)).2 hnone
    constructor
    · intro l hl
      have h2 := (hnl (splitLines text)).1 l hl
      simp [extract_name, h0, h2]
    · intro hl
      have h2 := (hnl (splitLines text)).2 hl
      simp [extract_name, h0, h2]

/-- Witness for C7 at concrete inputs: a PERSON entity wins; with no
entities the first non-blank line is returned stripped; an entirely
blank text yields "Unknown". -/
theorem C7_extract_name_spec_witness :
    extract_name (fun _ => [("ACME", "ORG"), ("John Smith", "PERSON")]) "x" =
      "John Smith" ∧
    extract_name (fun _ => []) " Jane \nrest" = "Jane" ∧
    extract_name (fun _ => []) " \n\t" = "Unknown" := by
  have h1 := C7_extract_name_spec
    (fun _ => [("ACME", "ORG"), ("John Smith", "PERSON")]) "x"
  have h2 := C7_extract_name_spec (fun _ => []) " Jane \nrest"
  have h3 := C7_extract_name_spec (fun _ => []) " \n\t"
  refine ⟨h1.1 ("John Smith", "PERSON") (by decide), ?_,
    (h3.2 (by decide)).2 (by decide)⟩
  exact ((h2.2 (by decide)).1 " Jane " (by decide)).trans (by decide)

/-- C7 counterexample: with no PERSON entity, the first non-blank line
" John " is returned as "John", i.e. stripped, not verbatim. -/
theorem C7_counterexample :
    extract_name (fun _ => []) " John \nrest" = "John" ∧
    (splitLines " John \nrest").find? (fun l => !(pyStrip l == "")) =
      some " John " ∧
    ("John" : String) ≠ " John " := by decide

/-! ### Row-dictionary lemmas -/

/-- Assigning a fresh key to a Python dict appends it at the end. -/
theorem dictSet_fresh (d : List (String × Cell)) (k : String) (v : Cell)
    (h : ∀ p ∈ d, p.1 ≠ k) : dictSet d k v = d ++ [(k, v)] := by
  have hk : hasKey d k = false := by
    simp only [hasKey, List.any_eq_false, decide_eq_true_eq]
    exact h
  unfold dictSet
  simp [hk]

/-- Folding fresh, pairwise-distinct keys into a dict appends them in
order. -/
theorem foldl_dictSet_append (pairs : List (String × ℤ)) :
    ∀ d : List (String × Cell),
      (∀ q ∈ d, ∀ p ∈ pairs, q.1 ≠ p.1) →
      (pairs.map Prod.fst).Nodup →
      pairs.foldl (fun d p => dictSet d p.1 (Cell.i p.2)) d =
        d ++ pairs.map (fun p => (p.1, Cell.i p.2)) := by
  induction pairs with
  | nil => intro d _ _; simp
  | cons p t ih =>
    intro d hfresh hnd
    have hstep : dictSet d p.1 (Cell.i p.2) = d ++ [(p.1, Cell.i p.2)] := by
      refine dictSet_fresh d p.1 (Cell.i p.2) ?_
      intro q hq
      exact hfresh q hq p (List.mem_cons_self p t)
    rw [List.foldl_cons, hstep]
    rw [ih (d ++ [(p.1, Cell.i p.2)]) ?_ ?_]
    · simp
    · intro q hq r hr
      rcases List.mem_append.mp hq with hq | hq
      · exact hfresh q hq r (List.mem_cons_of_mem p hr)
      · have hq1 : q = (p.1, Cell.i p.2) := by simpa using hq
        subst hq1
        simp only [List.map_cons, List.nodup_cons] at hnd
        intro hcontra
        exact hnd.1 (hcontra ▸ List.mem_map_of_mem Prod.fst hr)
    · simp only [List.map_cons, List.nodup_cons] at hnd
      exact hnd.2

/-- C4 (amended): provided the derived column labels are pairwise
distinct and distinct from the reserved "Candidate Name" and
"Total Score" headers, each report row is exactly the candidate name
followed by one score cell per criterion in criteria order, then the
total cell holding the sum of the per-criterion scores.  (With duplicate
labels the row dictionary collapses columns; see the counterexample.) -/
theorem C4_row_shape (name : String) (scores : List ℤ) (column_names : List String)
    (hlen : column_names.length = scores.length)
    (hnd : column_names.Nodup)
    (hcn : "Candidate Name" ∉ column_names)
    (hts : "Total Score" ∉ column_names) :
    buildRow name scores scores.sum column_names =
      ("Candidate Name", Cell.s name) ::
        (column_names.zip (scores.map Cell.i) ++
          [("Total Score", Cell.i scores.sum)]) := by
  have hkeys : (column_names.zip scores).map Prod.fst = column_names :=
    List.map_fst_zip column_names scores (le_of_eq hlen)
  have hmem : ∀ p ∈ column_names.zip scores, p.1 ∈ column_names := by
    intro p hp
    exact (List.of_mem_zip hp).1
  have h1 : (column_names.zip scores).foldl
      (fun d p => dictSet d p.1 (Cell.i p.2))
      [("Candidate Name", Cell.s name)] =
      [("Candidate Name", Cell.s name)] ++
        (column_names.zip scores).map (fun p => (p.1, Cell.i p.2)) := by
    refine foldl_dictSet_append _ _ ?_ (by rw [hkeys]; exact hnd)
    intro q hq p hp
    have hq1 : q = ("Candidate Name", Cell.s name) := by simpa using hq
    subst hq1
    intro hcontra
    have hc : "Candidate Name" = p.1 := hcontra
    exact hcn (by rw [hc]; exact hmem p hp)
  have h2 : (column_names.zip scores).map (fun p => (p.1, Cell.i p.2)) =
      column_names.zip (scores.map Cell.i) := by
    rw [List.zip_map_right]
    refine List.map_congr_left ?_
    intro p _
    cases p
    rfl
  unfold buildRow
  rw [h1, h2]
  rw [dictSet_fresh]
  · simp
  · intro p hp
    rcases List.mem_append.mp hp with hp | hp
    · have hp1 : p = ("Candidate Name", Cell.s name) := by simpa using hp
      subst hp1
      intro hcontra
      have hc : "Candidate Name" = "Total Score" := hcontra
      exact absurd hc (by decide)
    · intro hcontra
      have hc : p.1 = "Total Score" := hcontra
      exact hts (by rw [← hc]; exact (List.of_mem_zip hp).1)

/-- Witness for C4 at concrete inputs with distinct labels. -/
theorem C4_row_shape_witness :
    buildRow "A" [1, 2] ([1, 2] : List ℤ).sum ["X", "Y"] =
      [("Candidate Name", Cell.s "A"), ("X", Cell.i 1), ("Y", Cell.i 2),
       ("Total Score", Cell.i ([1, 2] : List ℤ).sum)] := by
  have h := C4_row_shape "A" [1, 2] ["X", "Y"]
    (by decide) (by decide) (by decide) (by decide)
  simpa using h

/-- C4 counterexample: two distinct criteria may derive the same column
label, and then the assembled row has a single score column holding only
the later criterion's score — not one column per supplied criterion. -/
theorem C4_counterexample :
    buildRow "A" [1, 2] 3 (["c1", "c2"].map (get_column_name (fun _ => ["x"]))) =
      [("Candidate Name", Cell.s "A"), ("X", Cell.i 2),
       ("Total Score", Cell.i 3)] ∧
    buildRow "A" [1, 2] 3 (["c1", "c2"].map (get_column_name (fun _ => ["x"]))) ≠
      [("Candidate Name", Cell.s "A"), ("X", Cell.i 1), ("X", Cell.i 2),
       ("Total Score", Cell.i 3)] := by decide

/-- C9: when two distinct criteria derive the same (non-reserved) column
label, the assembled row keeps only the later criterion's score under
that label while the Total Score cell still sums both scores, so
whenever the earlier score is non-zero the total differs from the sum of
the displayed score columns. -/
theorem C9_duplicate_label_overwrite (nc : String → List String)
    (c₁ c₂ name : String) (s₁ s₂ : ℤ)
    (_hne : c₁ ≠ c₂)
    (heq : get_column_name nc c₁ = get_column_name nc c₂)
    (hcn : get_column_name nc c₂ ≠ "Candidate Name")
    (hts : get_column_name nc c₂ ≠ "Total Score") :
    buildRow name [s₁, s₂] (s₁ + s₂) ([c₁, c₂].map (get_column_name nc)) =
      [("Candidate Name", Cell.s name),
       (get_column_name nc c₂, Cell.i s₂),
       ("Total Score", Cell.i (s₁ + s₂))] ∧
    (s₁ ≠ 0 →
      displayedScoreSum (buildRow name [s₁, s₂] (s₁ + s₂)
        ([c₁, c₂].map (get_column_name nc))) ≠ s₁ + s₂) := by
  have hcn' : "Candidate Name" ≠ get_column_name nc c₂ := Ne.symm hcn
  have hts' : "Total Score" ≠ get_column_name nc c₂ := Ne.symm hts
  have hrow : buildRow name [s₁, s₂] (s₁ + s₂)
      ([c₁, c₂].map (get_column_name nc)) =
      [("Candidate Name", Cell.s name),
       (get_column_name nc c₂, Cell.i s₂),
       ("Total Score", Cell.i (s₁ + s₂))] := by
    simp [buildRow, dictSet, hasKey, heq, hcn, hts, hcn', hts']
  refine ⟨hrow, ?_⟩
  intro hs₁
  rw [hrow]
  have hsum : displayedScoreSum
      [("Candidate Name", Cell.s name),
       (get_column_name nc c₂, Cell.i s₂),
       ("Total Score", Cell.i (s₁ + s₂))] = s₂ := by
    simp [displayedScoreSum, cellInt, hcn, hts]
  rw [hsum]
  omega

/-- Witness for C9: criteria "a" and "b" both derive the label "X";
the row shows only the score 2 yet totals 3. -/
theorem C9_duplicate_label_overwrite_witness :
    buildRow "N" [1, 2] (1 + 2) (["a", "b"].map (get_column_name (fun _ => ["x"]))) =
      [("Candidate Name", Cell.s "N"),
       (get_column_name (fun _ => ["x"]) "b", Cell.i 2),
       ("Total Score", Cell.i (1 + 2))] ∧
    displayedScoreSum (buildRow "N" [1, 2] (1 + 2)
      (["a", "b"].map (get_column_name (fun _ => ["x"])))) ≠ 1 + 2 := by
  have h := C9_duplicate_label_overwrite (fun _ => ["x"]) "a" "b" "N" 1 2
    (by decide) (by decide) (by decide) (by decide)
  exact ⟨h.1, h.2 (by decide)⟩

/-! ### Endpoint behaviour -/

/-- The scoring loop keeps exactly the valid-extension files, in upload
order. -/
theorem processLoop_eq_filter (env : Env) (criteria : List String) :
    ∀ files : List (String × String),
      processLoop env criteria files =
        (files.filter (fun f => validExt f.1)).map
          (fun f => mkResult env criteria f.1 f.2) := by
  intro files
  induction files with
  | nil => rfl
  | cons f rest ih =>
    by_cases h : validExt f.1
    · simp [processLoop, h, List.filter_cons, ih]
    · simp [processLoop, h, List.filter_cons, ih]

/-- C10: in `POST /score-resumes` every file whose name does not end in
`.pdf` or `.docx` is skipped silently, the report has exactly one row
per non-skipped file in upload order, and a request in which every file
is skipped still succeeds with a report of zero rows. -/
theorem C10_skip_invalid_files (env : Env) (criteria : List String)
    (files : List (String × String)) :
    score_resumes_endpoint env criteria files =
      Except.ok (Report.mk ((files.filter (fun f => validExt f.1)).map
        (rowFor env criteria))) ∧
    ((∀ f ∈ files, validExt f.1 = false) →
      score_resumes_endpoint env criteria files = Except.ok (Report.mk [])) := by
  have hmain : score_resumes_endpoint env criteria files =
      Except.ok (Report.mk ((files.filter (fun f => validExt f.1)).map
        (rowFor env criteria))) := by
    simp only [score_resumes_endpoint, processLoop_eq_filter, List.map_map]
    rfl
  refine ⟨hmain, ?_⟩
  intro hall
  rw [hmain]
  have hfil : files.filter (fun f => validExt f.1) = [] := by
    rw [List.filter_eq_nil_iff]
    intro f hf
    simp [hall f hf]
  rw [hfil]
  rfl

/-- Witness for C10: a request whose only file has the wrong extension
returns a report with zero rows. -/
theorem C10_skip_invalid_files_witness :
    score_resumes_endpoint env0 ["skills"] [("resume.txt", "text")] =
      Except.ok (Report.mk []) := by
  exact (C10_skip_invalid_files env0 ["skills"] [("resume.txt", "text")]).2
    (by decide)

/-- C6 (amended): the scoring handler performs no request validation at
all — for every criteria list and file list (any sizes, any extensions)
it returns a tabular attachment, never a 400 error. -/
theorem C6_no_request_validation (env : Env) (criteria : List String)
    (files : List (String × String)) :
    ∃ rep : Report, score_resumes_endpoint env criteria files = Except.ok rep :=
  ⟨_, rfl⟩

/-- C6 counterexample: 21 uploaded files (over the claimed cap of 20)
are accepted and scored — the handler answers success, not a 400 — and
an empty criteria list is likewise accepted. -/
theorem C6_counterexample :
    score_resumes_endpoint env0 ["skills"] (List.replicate 21 ("r.pdf", "")) =
      Except.ok (Report.mk (List.replicate 21
        [("Candidate Name", Cell.s "Unknown"), ("skills", Cell.i 0),
         ("Total Score", Cell.i 0)])) ∧
    score_resumes_endpoint env0 [] (List.replicate 21 ("r.pdf", "")) =
      Except.ok (Report.mk (List.replicate 21
        [("Candidate Name", Cell.s "Unknown"),
         ("Total Score", Cell.i 0)])) := ⟨rfl, rfl⟩

/-- C5 (amended): `POST /extract-criteria` fails with 400 exactly when
the filename's extension is neither `.pdf` nor `.docx`; otherwise it
returns (and stores) the extracted criteria list — even when that list
is empty.  No 500-on-empty check exists in the handler. -/
theorem C5_extract_endpoint_behavior (env : Env) (stored : List String)
    (fname content : String) :
    (validExt fname = false →
      extract_criteria_endpoint env stored fname content =
        (Except.error (400, "Unsupported file type. Only PDF and DOCX are allowed."),
         stored)) ∧
    (validExt fname = true →
      extract_criteria_endpoint env stored fname content =
        (Except.ok (extract_criteria env.sent_tokenize
            (read_document env fname content)),
         extract_criteria env.sent_tokenize (read_document env fname content))) := by
  constructor
  · intro h
    simp [extract_criteria_endpoint, h]
  · intro h
    simp [extract_criteria_endpoint, h]

/-- Witness for C5: a `.txt` upload is rejected with 400; a `.pdf`
upload is accepted. -/
theorem C5_extract_endpoint_behavior_witness :
    extract_criteria_endpoint env0 ["old"] "jd.txt" "" =
      (Except.error (400, "Unsupported file type. Only PDF and DOCX are allowed."),
       ["old"]) ∧
    extract_criteria_endpoint env0 ["old"] "jd.pdf" "" =
      (Except.ok (extract_criteria env0.sent_tokenize
          (read_document env0 "jd.pdf" "")),
       extract_criteria env0.sent_tokenize (read_document env0 "jd.pdf" "")) := by
  have h1 := C5_extract_endpoint_behavior env0 ["old"] "jd.txt" ""
  have h2 := C5_extract_endpoint_behavior env0 ["old"] "jd.pdf" ""
  exact ⟨h1.1 (by decide), h2.2 (by decide)⟩

/-- C5 counterexample: a document from which no criteria are extracted
yields HTTP success with the empty list — not the claimed 500 error. -/
theorem C5_counterexample :
    (extract_criteria_endpoint env0 ["old"] "jd.pdf" "").1 = Except.ok [] ∧
    extract_criteria env0.sent_tokenize (read_document env0 "jd.pdf" "") = [] :=
  ⟨rfl, rfl⟩

/-- C8: a (valid) extraction call stores the freshly extracted criteria
list, overwriting whatever was stored before (the new state does not
depend on the old); `GET /get-criteria` returns the stored list when it
is non-empty and fails with 404 when no criteria are stored. -/
theorem C8_criteria_storage (env : Env) (s₁ s₂ : List String)
    (fname content : String) :
    (validExt fname = true →
      (extract_criteria_endpoint env s₁ fname content).2 =
        extract_criteria env.sent_tokenize (read_document env fname content) ∧
      (extract_criteria_endpoint env s₁ fname content).2 =
        (extract_criteria_endpoint env s₂ fname content).2) ∧
    (s₁ ≠ [] → get_criteria s₁ = Except.ok s₁) ∧
    get_criteria [] =
      Except.error (404, "No criteria found. Please extract criteria first.") := by
  refine ⟨?_, ?_, rfl⟩
  · intro h
    constructor
    · simp [extract_criteria_endpoint, h]
    · simp [extract_criteria_endpoint, h]
  · intro h
    simp [get_criteria, h]

/-- Witness for C8 at concrete inputs. -/
theorem C8_criteria_storage_witness :
    (extract_criteria_endpoint env0 ["a"] "x.docx" "").2 =
      extract_criteria env0.sent_tokenize (read_document env0 "x.docx" "") ∧
    (extract_criteria_endpoint env0 ["a"] "x.docx" "").2 =
      (extract_criteria_endpoint env0 ["b"] "x.docx" "").2 ∧
    get_criteria ["a"] = Except.ok ["a"] := by
  have h := C8_criteria_storage env0 ["a"] ["b"] "x.docx" ""
  exact ⟨(h.1 (by decide)).1, (h.1 (by decide)).2, h.2.1 (by decide)⟩

example : pyStrip "  must have x " = "must have x" := by decide
example : hasTrigger " Must HAVE x" = true := by decide
example : pyTitle "python skills" = "Python Skills" := by decide
example : pyRound (mkRat 3 2) = 2 := by decide
example : pyRound (mkRat 5 2) = 2 := by decide
example : pyRound (mkRat 7 2) = 4 := by decide
example : pyRound 0 = 0 := by decide
example : preprocess env0 "" = ∅ := by decide
example : jaccard_similarity ∅ ∅ = 0 := by decide
example : jaccard_similarity {"a"} {"a", "b"} = mkRat 1 2 := by decide
example : criterionScore env0 "anything" "skills" = 0 := by decide
example : splitLines "a\n\nb" = ["a", "", "b"] := by decide
example : extract_name (fun _ => []) " John \nx" = "John" := by decide
example :
    score_resumes_endpoint env0 [] [("a.txt", "")] =
      Except.ok { rows := [] } := rfl
